import Mathlib

/-!
Buzz controller protocol codec — verification.

Shallow embedding of the stateful button decoder and the LED command
encoder of `modern-node-buzzers` (src/src/playground.ts: the
button-mapping module and the buzz-controller-operations module),
together with proofs of the specified properties.

The decoder `parseButtonPress` is a JavaScript function reading and
replacing a module-level record `previousButtonStates`; here the state
is passed and returned explicitly, so one call
`parseButtonPress data st` returns the pair
(returned value, new `previousButtonStates`).
-/

/-- One entry of the bit-position table: which byte and which bit of the
5-byte input report holds one button's pressed flag (the
`{ byte: _, bit: _ }` objects of `CONTROLLER_BIT_MAPPING`). -/
structure BitLocus where
  byte : Nat
  bit : Nat
deriving DecidableEq, Repr

/-- `CONTROLLER_BIT_MAPPING` from the button-mapping module: for each
controller 0–3, for each button 0–4, its bit locus. JavaScript
`Object.entries` enumerates the integer-like keys in ascending numeric
order, so the list order below is the iteration order of the nested
`for` loops of `parseButtonPress`. -/
def CONTROLLER_BIT_MAPPING : List (Nat × List (Nat × BitLocus)) :=
  [ (0, [(0, ⟨2, 0⟩), (1, ⟨2, 4⟩), (2, ⟨2, 3⟩), (3, ⟨2, 2⟩), (4, ⟨2, 1⟩)]),
    (1, [(0, ⟨2, 5⟩), (1, ⟨3, 1⟩), (2, ⟨3, 0⟩), (3, ⟨2, 7⟩), (4, ⟨2, 6⟩)]),
    (2, [(0, ⟨3, 2⟩), (1, ⟨3, 6⟩), (2, ⟨3, 5⟩), (3, ⟨3, 4⟩), (4, ⟨3, 3⟩)]),
    (3, [(0, ⟨3, 7⟩), (1, ⟨4, 3⟩), (2, ⟨4, 2⟩), (3, ⟨4, 1⟩), (4, ⟨4, 0⟩)]) ]

/-- The 20 (controller, button, locus) triples in the exact order the
nested `Object.entries` loops of `parseButtonPress` visit them. -/
def lociList : List (Nat × Nat × BitLocus) :=
  CONTROLLER_BIT_MAPPING.flatMap fun p => p.2.map fun q => (p.1, q.1, q.2)

/-- The `ButtonAction` string constants `'pressed'` / `'released'`. -/
inductive ButtonAction where
  | pressed
  | released
deriving DecidableEq, Repr

/-- `BUTTON_NAMES: Record<number, string>`: partial map from button
number to display name. -/
def BUTTON_NAMES (n : Nat) : Option String :=
  if n = 0 then some "Red Buzzer"
  else if n = 1 then some "Blue"
  else if n = 2 then some "Orange"
  else if n = 3 then some "Green"
  else if n = 4 then some "Yellow"
  else none

/-- The fallback read `BUTTON_NAMES[button] || ("Button " + button)`
used by `parseButtonPress` and `getButtonName`. -/
def buttonDisplayName (n : Nat) : String :=
  (BUTTON_NAMES n).getD ("Button " ++ toString n)

/-- A `ButtonEvent` record. The `timestamp: Date.now()` field is a
wall-clock read and is not modelled; no claim concerns it. -/
structure ButtonEvent where
  controller : Nat
  button : Nat
  buttonName : String
  action : ButtonAction
deriving DecidableEq, Repr

/-- The decoder state `previousButtonStates: Record<string, boolean>`:
an association map keyed by the string `controller + "-" + button`,
modelled by the (controller, button) pair that the key string encodes
injectively. The initial value `{}` is `[]`. -/
abbrev ButtonStates := List ((Nat × Nat) × Bool)

/-- The read `previousButtonStates[stateKey] || false`: a missing key
reads as `undefined`, which is falsy. -/
def lookupState (st : ButtonStates) (c b : Nat) : Bool :=
  match st.lookup (c, b) with
  | some v => v
  | none => false

/-- `bytes[mapping.byte]` followed by the test
`(byteValue & (1 << mapping.bit)) !== 0`; an out-of-range index reads
as `undefined` and leaves `isPressed` at its initial `false`. -/
def readBit (bytes : List Nat) (m : BitLocus) : Bool :=
  match bytes.get? m.byte with
  | some v => (v &&& (1 <<< m.bit)) != 0
  | none => false

/-- The body of the inner loop of `parseButtonPress` for one
(controller, button) locus: read the current bit, compare with the
retained previous value, and produce the pressed / released event this
locus contributes, if any. -/
def edgeEvent (prev : ButtonStates) (bytes : List Nat)
    (l : Nat × Nat × BitLocus) : Option ButtonEvent :=
  let isPressed := readBit bytes l.2.2
  let wasPressed := lookupState prev l.1 l.2.1
  if isPressed && !wasPressed then
    some ⟨l.1, l.2.1, buttonDisplayName l.2.1, ButtonAction.pressed⟩
  else if !isPressed && wasPressed then
    some ⟨l.1, l.2.1, buttonDisplayName l.2.1, ButtonAction.released⟩
  else none

/-- `parseButtonPress(data)` of the button-mapping module. A buffer
shorter than 5 bytes returns `null` at once. Otherwise the nested
loops collect, in `lociList` order, one optional event per locus
(`filterMap`) and the fresh `currentButtonStates` record (`map`); the
state is then replaced wholesale, and the function returns the event
list when it is non-empty and `null` otherwise. -/
def parseButtonPress (data : List Nat) (previousButtonStates : ButtonStates) :
    Option (List ButtonEvent) × ButtonStates :=
  if data.length < 5 then (none, previousButtonStates)
  else
    let bytes := data.take 5
    let events := lociList.filterMap (edgeEvent previousButtonStates bytes)
    let currentButtonStates : ButtonStates :=
      lociList.map fun l => ((l.1, l.2.1), readBit bytes l.2.2)
    (if events.length > 0 then some events else none, currentButtonStates)

/-- The event list a caller receives from one decode call; the `null`
return stands for the empty list of events. -/
def eventsOf (r : Option (List ButtonEvent) × ButtonStates) :
    List ButtonEvent := r.1.getD []

/-- `BuzzerLedState`: the interface with boolean fields keyed 0–3
(fields `led0`–`led3` here). -/
structure BuzzerLedState where
  led0 : Bool
  led1 : Bool
  led2 : Bool
  led3 : Bool
deriving DecidableEq, Repr

/-- `BuzzControllerUtils.isValidBuzzerNumber`: the argument is a
JavaScript `number`, modelled as a rational; `Number.isInteger(x)` is
`x.den = 1`. Source: `buzzerNumber >= 1 && buzzerNumber <= 4 &&
Number.isInteger(buzzerNumber)`. -/
def BuzzControllerUtils.isValidBuzzerNumber (buzzerNumber : Rat) : Bool :=
  decide (buzzerNumber ≥ 1) && decide (buzzerNumber ≤ 4) &&
    decide (buzzerNumber.den = 1)

/-- `BuzzControllerUtils.ledStateToCommand`: two `0x00` header bytes,
then one byte per channel, `0xFF` when lit else `0x00`. -/
def BuzzControllerUtils.ledStateToCommand (ledState : BuzzerLedState) :
    List Nat :=
  [0x00, 0x00,
   if ledState.led0 then 0xFF else 0x00,
   if ledState.led1 then 0xFF else 0x00,
   if ledState.led2 then 0xFF else 0x00,
   if ledState.led3 then 0xFF else 0x00]

/-- The same `ledStateToCommand` body at the JavaScript runtime level,
applied to an object that may omit channels (the spec's `encode({})`):
an absent key reads as `undefined`, which is falsy in
`ledState[N] ? 0xff : 0x00`. -/
def BuzzControllerUtils.ledStateToCommandObj (ledState : Nat → Option Bool) :
    List Nat :=
  [0x00, 0x00,
   if (ledState 0).getD false then 0xFF else 0x00,
   if (ledState 1).getD false then 0xFF else 0x00,
   if (ledState 2).getD false then 0xFF else 0x00,
   if (ledState 3).getD false then 0xFF else 0x00]

/-- `BuzzLedPatterns.playerReady`: each channel is lit exactly when
`playerNumber === ` its 1-based number. -/
def BuzzLedPatterns.playerReady (playerNumber : Rat) : BuzzerLedState :=
  ⟨decide (playerNumber = 1), decide (playerNumber = 2),
   decide (playerNumber = 3), decide (playerNumber = 4)⟩

/-- `BuzzLedPatterns.allOff`: every channel unlit. -/
def BuzzLedPatterns.allOff : BuzzerLedState :=
  ⟨false, false, false, false⟩

/-- Number of lit channels of an LED state. -/
def litCount (ls : BuzzerLedState) : Nat :=
  (if ls.led0 then 1 else 0) + (if ls.led1 then 1 else 0) +
    (if ls.led2 then 1 else 0) + (if ls.led3 then 1 else 0)

/-! ## Helper lemmas about the decoder -/

/-- The 20 (controller, button) keys of the locus table are pairwise
distinct. -/
theorem lociKeys_nodup : (lociList.map fun l => (l.1, l.2.1)).Nodup := by
  decide

/-- The locus table is enumerated in strictly increasing
(controller, button) lexicographic order. -/
theorem lociList_sorted :
    lociList.Pairwise fun l1 l2 =>
      l1.1 < l2.1 ∨ (l1.1 = l2.1 ∧ l1.2.1 < l2.2.1) := by
  decide

/-- On a long-enough buffer, the returned value of `parseButtonPress` is
the per-locus event list when non-empty, else `null`. -/
theorem parse_fst (data : List Nat) (s : ButtonStates)
    (h : ¬ data.length < 5) :
    (parseButtonPress data s).1 =
      (if (lociList.filterMap (edgeEvent s (data.take 5))).length > 0
        then some (lociList.filterMap (edgeEvent s (data.take 5)))
        else none) := by
  unfold parseButtonPress
  rw [if_neg h]

/-- On a long-enough buffer, the new `previousButtonStates` is the full
per-locus snapshot of the report. -/
theorem parse_snd (data : List Nat) (s : ButtonStates)
    (h : ¬ data.length < 5) :
    (parseButtonPress data s).2 =
      lociList.map fun l => ((l.1, l.2.1), readBit (data.take 5) l.2.2) := by
  unfold parseButtonPress
  rw [if_neg h]

/-- After a valid decode, the snapshot holds, for each locus of the
table, exactly the bit value read from the report. -/
theorem lookupState_parse (data : List Nat) (s : ButtonStates)
    (h : ¬ data.length < 5) (x : Nat × Nat × BitLocus) (hx : x ∈ lociList) :
    lookupState (parseButtonPress data s).2 x.1 x.2.1 =
      readBit (data.take 5) x.2.2 := by
  rw [parse_snd data s h]
  fin_cases hx <;> rfl

/-- A locus whose current bit equals its retained previous value
contributes no event. -/
theorem edgeEvent_eq_none (prev : ButtonStates) (bytes : List Nat)
    (l : Nat × Nat × BitLocus)
    (h : readBit bytes l.2.2 = lookupState prev l.1 l.2.1) :
    edgeEvent prev bytes l = none := by
  unfold edgeEvent
  rw [h]
  cases lookupState prev l.1 l.2.1 <;> simp

/-- A locus rising from unpressed to pressed contributes exactly the
`pressed` event. -/
theorem edgeEvent_eq_pressed (prev : ButtonStates) (bytes : List Nat)
    (l : Nat × Nat × BitLocus)
    (h1 : lookupState prev l.1 l.2.1 = false)
    (h2 : readBit bytes l.2.2 = true) :
    edgeEvent prev bytes l =
      some ⟨l.1, l.2.1, buttonDisplayName l.2.1, ButtonAction.pressed⟩ := by
  unfold edgeEvent
  rw [h1, h2]
  simp

/-- A locus falling from pressed to unpressed contributes exactly the
`released` event. -/
theorem edgeEvent_eq_released (prev : ButtonStates) (bytes : List Nat)
    (l : Nat × Nat × BitLocus)
    (h1 : lookupState prev l.1 l.2.1 = true)
    (h2 : readBit bytes l.2.2 = false) :
    edgeEvent prev bytes l =
      some ⟨l.1, l.2.1, buttonDisplayName l.2.1, ButtonAction.released⟩ := by
  unfold edgeEvent
  rw [h1, h2]
  simp

/-- An event produced for a locus carries that locus's controller and
button indices. -/
theorem edgeEvent_some_key (prev : ButtonStates) (bytes : List Nat)
    (l : Nat × Nat × BitLocus) (e : ButtonEvent)
    (h : edgeEvent prev bytes l = some e) :
    e.controller = l.1 ∧ e.button = l.2.1 := by
  unfold edgeEvent at h
  dsimp only at h
  split_ifs at h <;> cases h <;> exact ⟨rfl, rfl⟩

/-- `filterMap` over a list with pairwise-distinct keys, where the one
element carrying a designated key yields `some e` and every element
with a different key yields `none`, returns exactly `[e]`. -/
theorem filterMap_single_key {g : Nat × Nat × BitLocus → Option ButtonEvent}
    {e : ButtonEvent} {x : Nat × Nat × BitLocus} :
    ∀ L : List (Nat × Nat × BitLocus), x ∈ L →
      (L.map fun l => (l.1, l.2.1)).Nodup →
      g x = some e →
      (∀ l ∈ L, (l.1, l.2.1) ≠ (x.1, x.2.1) → g l = none) →
      L.filterMap g = [e]
  | [], hmem, _, _, _ => absurd hmem (List.not_mem_nil x)
  | a :: L, hmem, hnd, hx, hother => by
    rw [List.map_cons, List.nodup_cons] at hnd
    rcases List.mem_cons.mp hmem with rfl | hmemL
    · rw [List.filterMap_cons_some hx]
      have hLnil : L.filterMap g = [] := by
        rw [List.filterMap_eq_nil_iff]
        intro l hl
        refine hother l (List.mem_cons_of_mem _ hl) ?_
        intro hkey
        exact hnd.1 (hkey ▸ List.mem_map_of_mem (fun l => (l.1, l.2.1)) hl)
      rw [hLnil]
    · have hka : (a.1, a.2.1) ≠ (x.1, x.2.1) := by
        intro hkey
        exact hnd.1 (hkey ▸ List.mem_map_of_mem (fun l => (l.1, l.2.1)) hmemL)
      rw [List.filterMap_cons_none (hother a (List.mem_cons_self a L) hka)]
      exact filterMap_single_key L hmemL hnd.2 hx
        fun l hl => hother l (List.mem_cons_of_mem _ hl)

/-- `filterMap` preserves pairwise order when the partial function
preserves the order relation. -/
theorem pairwise_filterMap_of_rel {α β : Type} {R : α → α → Prop}
    {S : β → β → Prop} {g : α → Option β}
    (hg : ∀ a b e1 e2, R a b → g a = some e1 → g b = some e2 → S e1 e2) :
    ∀ L : List α, L.Pairwise R → (L.filterMap g).Pairwise S
  | [], _ => by simp
  | a :: L, hp => by
    rw [List.pairwise_cons] at hp
    cases hga : g a with
    | none =>
        rw [List.filterMap_cons_none hga]
        exact pairwise_filterMap_of_rel hg L hp.2
    | some e =>
        rw [List.filterMap_cons_some hga]
        refine List.Pairwise.cons ?_ (pairwise_filterMap_of_rel hg L hp.2)
        intro e2 he2
        obtain ⟨b, hb, hgb⟩ := List.mem_filterMap.mp he2
        exact hg a b e e2 (hp.1 b hb) hga hgb

/-- One decode step after a previous valid decode, in which exactly one
locus of the table changes value: the call returns exactly one event
for that locus, `pressed` on a rise and `released` on a fall. -/
theorem parse_single_change (rprev rcur : List Nat) (s : ButtonStates)
    (c b : Nat) (m : BitLocus) (hmem : (c, b, m) ∈ lociList)
    (hprev : rprev.length = 5) (hcur : rcur.length = 5)
    (hchange : readBit rcur m = !(readBit rprev m))
    (ho : ∀ l ∈ lociList, (l.1, l.2.1) ≠ (c, b) →
      readBit rcur l.2.2 = readBit rprev l.2.2) :
    (parseButtonPress rcur (parseButtonPress rprev s).2).1 =
      some [⟨c, b, buttonDisplayName b,
        if readBit rcur m then ButtonAction.pressed
        else ButtonAction.released⟩] := by
  have hnp : ¬ rprev.length < 5 := by omega
  have hnc : ¬ rcur.length < 5 := by omega
  have htp : rprev.take 5 = rprev := by
    rw [← hprev]; exact List.take_length rprev
  have htc : rcur.take 5 = rcur := by
    rw [← hcur]; exact List.take_length rcur
  have hsnap : ∀ l ∈ lociList,
      lookupState (parseButtonPress rprev s).2 l.1 l.2.1 =
        readBit rprev l.2.2 := by
    intro l hl
    rw [lookupState_parse rprev s hnp l hl, htp]
  have hx : edgeEvent (parseButtonPress rprev s).2 rcur (c, b, m) =
      some ⟨c, b, buttonDisplayName b,
        if readBit rcur m then ButtonAction.pressed
        else ButtonAction.released⟩ := by
    cases hbit : readBit rcur m with
    | true =>
        rw [if_pos rfl]
        refine edgeEvent_eq_pressed _ _ (c, b, m) ?_ hbit
        rw [hsnap (c, b, m) hmem]
        rw [hbit] at hchange
        cases hpb : readBit rprev m
        · rfl
        · rw [hpb] at hchange; exact absurd hchange.symm (by decide)
    | false =>
        rw [if_neg (by decide)]
        refine edgeEvent_eq_released _ _ (c, b, m) ?_ hbit
        rw [hsnap (c, b, m) hmem]
        rw [hbit] at hchange
        cases hpb : readBit rprev m
        · rw [hpb] at hchange; exact absurd hchange.symm (by decide)
        · rfl
  have hother : ∀ l ∈ lociList, (l.1, l.2.1) ≠ (c, b) →
      edgeEvent (parseButtonPress rprev s).2 rcur l = none := by
    intro l hl hkey
    exact edgeEvent_eq_none _ _ l ((ho l hl hkey).trans (hsnap l hl).symm)
  have hevents :
      lociList.filterMap (edgeEvent (parseButtonPress rprev s).2 rcur) =
        [⟨c, b, buttonDisplayName b,
          if readBit rcur m then ButtonAction.pressed
          else ButtonAction.released⟩] :=
    filterMap_single_key lociList hmem lociKeys_nodup hx hother
  rw [parse_fst rcur (parseButtonPress rprev s).2 hnc, htc, hevents]
  rfl

/-- On a long-enough buffer the caller-visible event list is exactly the
per-locus `filterMap`, whether or not it is empty. -/
theorem eventsOf_parse (data : List Nat) (s : ButtonStates)
    (h : ¬ data.length < 5) :
    eventsOf (parseButtonPress data s) =
      lociList.filterMap (edgeEvent s (data.take 5)) := by
  unfold eventsOf
  rw [parse_fst data s h]
  by_cases h2 : (lociList.filterMap (edgeEvent s (data.take 5))).length > 0
  · rw [if_pos h2]
    rfl
  · rw [if_neg h2]
    rw [List.eq_nil_of_length_eq_zero (Nat.eq_zero_of_not_pos h2)]
    rfl

/-! ## The claims -/

/-- C1: for every 5-byte report sequence in which exactly one
(controller, button) locus flips from unpressed to pressed between two
consecutive `parseButtonPress` calls while every other locus keeps its
value, the second call returns exactly one `pressed` event for that
(controller, button); a further call with that bit reverted (all else
constant) returns exactly one `released` event for the same locus. -/
theorem C1_single_flip (r1 r2 r3 : List Nat) (s0 : ButtonStates)
    (c b : Nat) (m : BitLocus) (hmem : (c, b, m) ∈ lociList)
    (h1 : r1.length = 5) (h2 : r2.length = 5) (h3 : r3.length = 5)
    (hb1 : readBit r1 m = false) (hb2 : readBit r2 m = true)
    (hb3 : readBit r3 m = false)
    (ho2 : ∀ l ∈ lociList, (l.1, l.2.1) ≠ (c, b) →
      readBit r2 l.2.2 = readBit r1 l.2.2)
    (ho3 : ∀ l ∈ lociList, (l.1, l.2.1) ≠ (c, b) →
      readBit r3 l.2.2 = readBit r2 l.2.2) :
    (parseButtonPress r2 (parseButtonPress r1 s0).2).1 =
        some [⟨c, b, buttonDisplayName b, ButtonAction.pressed⟩] ∧
      (parseButtonPress r3
          (parseButtonPress r2 (parseButtonPress r1 s0).2).2).1 =
        some [⟨c, b, buttonDisplayName b, ButtonAction.released⟩] := by
  constructor
  · have hp := parse_single_change r1 r2 s0 c b m hmem h1 h2
      (by rw [hb1, hb2]; rfl) ho2
    rw [hb2] at hp
    simpa using hp
  · have hp := parse_single_change r2 r3 (parseButtonPress r1 s0).2 c b m
      hmem h2 h3 (by rw [hb2, hb3]; rfl) ho3
    rw [hb3] at hp
    simpa using hp

/-- Witness for C1 at the concrete reports of the spec scenario. -/
theorem C1_single_flip_witness :
    (parseButtonPress [0, 0, 1, 0, 240]
        (parseButtonPress [0, 0, 0, 0, 240] []).2).1 =
        some [⟨0, 0, buttonDisplayName 0, ButtonAction.pressed⟩] ∧
      (parseButtonPress [0, 0, 0, 0, 240]
          (parseButtonPress [0, 0, 1, 0, 240]
            (parseButtonPress [0, 0, 0, 0, 240] []).2).2).1 =
        some [⟨0, 0, buttonDisplayName 0, ButtonAction.released⟩] :=
  C1_single_flip [0, 0, 0, 0, 240] [0, 0, 1, 0, 240] [0, 0, 0, 0, 240] []
    0 0 ⟨2, 0⟩ (by decide) (by decide) (by decide) (by decide)
    (by decide) (by decide) (by decide) (by decide) (by decide)

/-- C2, counterexample: the rejection result for a short buffer and the
result of a valid 5-byte report that produces no events are the same
value (`null`), so a caller can NOT tell them apart by the returned
value alone. -/
theorem C2_counterexample :
    (parseButtonPress [0, 0, 0] []).1 =
        (parseButtonPress [0, 0, 0, 0, 240] []).1 ∧
      (parseButtonPress [0, 0, 0] []).1 = none ∧
      (parseButtonPress [0, 0, 0, 0, 240] []).1 = none := by
  decide

/-- C2, amended: every input buffer of length < 5 yields the rejection
result `null` (no exception, no spurious event); however this value is
not distinguishable from the result of a valid report with no button
change, which is also `null`. -/
theorem C2_rejection (data : List Nat) (s : ButtonStates) :
    (data.length < 5 → (parseButtonPress data s).1 = none) ∧
      (parseButtonPress [0, 0, 1] []).1 =
        (parseButtonPress [0, 0, 0, 0, 240] []).1 := by
  constructor
  · intro h
    unfold parseButtonPress
    rw [if_pos h]
  · decide

/-- Witness for C2 at a concrete short buffer. -/
theorem C2_rejection_witness : (parseButtonPress [7] []).1 = none :=
  (C2_rejection [7] []).1 (by decide)

/-- C3, counterexample: `single(2)` is `playerReady(2)`, which is
1-based, so it encodes to `[0,0,0,0xFF,0,0]`, not the claimed
`[0,0,0,0,0xFF,0]`; and channel 0, although inside the claimed valid
range [0,3], yields the all-unlit state. -/
theorem C3_counterexample :
    BuzzControllerUtils.ledStateToCommand (BuzzLedPatterns.playerReady 2) ≠
        [0x00, 0x00, 0x00, 0x00, 0xFF, 0x00] ∧
      BuzzLedPatterns.playerReady 0 = BuzzLedPatterns.allOff := by
  have h2 : BuzzLedPatterns.playerReady 2 = ⟨false, true, false, false⟩ := by
    unfold BuzzLedPatterns.playerReady
    simp only [BuzzerLedState.mk.injEq, decide_eq_true_eq,
      decide_eq_false_iff_not]
    norm_num
  have h0 : BuzzLedPatterns.playerReady 0 = ⟨false, false, false, false⟩ := by
    unfold BuzzLedPatterns.playerReady
    simp only [BuzzerLedState.mk.injEq, decide_eq_false_iff_not]
    norm_num
  exact ⟨by rw [h2]; decide, h0⟩

/-- C3, amended: the round trip of the 1-based single-channel pattern
through the encoder gives `single(2) |> encode = [0,0,0,0xFF,0,0]`;
`single(channel)` lights exactly one channel when `channel` is one of
1, 2, 3, 4 and yields the all-unlit state, silently, for every other
argument. -/
theorem C3_single_pattern (p : Rat) :
    BuzzControllerUtils.ledStateToCommand (BuzzLedPatterns.playerReady 2) =
        [0x00, 0x00, 0x00, 0xFF, 0x00, 0x00] ∧
      ((p = 1 ∨ p = 2 ∨ p = 3 ∨ p = 4) →
        litCount (BuzzLedPatterns.playerReady p) = 1) ∧
      (p ≠ 1 → p ≠ 2 → p ≠ 3 → p ≠ 4 →
        BuzzLedPatterns.playerReady p = BuzzLedPatterns.allOff) := by
  refine ⟨?_, ?_, ?_⟩
  · have h2 : BuzzLedPatterns.playerReady 2 = ⟨false, true, false, false⟩ := by
      unfold BuzzLedPatterns.playerReady
      simp only [BuzzerLedState.mk.injEq, decide_eq_true_eq,
        decide_eq_false_iff_not]
      norm_num
    rw [h2]
    rfl
  · rintro (rfl | rfl | rfl | rfl) <;>
      · unfold litCount BuzzLedPatterns.playerReady
        norm_num
  · intro hp1 hp2 hp3 hp4
    show BuzzLedPatterns.playerReady p = ⟨false, false, false, false⟩
    unfold BuzzLedPatterns.playerReady
    simp only [BuzzerLedState.mk.injEq, decide_eq_false_iff_not]
    exact ⟨hp1, hp2, hp3, hp4⟩

/-- Witness for C3 at concrete channel arguments 2 and 5. -/
theorem C3_single_pattern_witness :
    litCount (BuzzLedPatterns.playerReady 2) = 1 ∧
      BuzzLedPatterns.playerReady 5 = BuzzLedPatterns.allOff :=
  ⟨(C3_single_pattern 2).2.1 (Or.inr (Or.inl rfl)),
   (C3_single_pattern 5).2.2 (by norm_num) (by norm_num) (by norm_num)
     (by norm_num)⟩

/-- C4 (code bug): the decoder exposes no reset operation at all; the
retained snapshot can only ever be replaced by decoding another valid
report. Consequently, when a stream restarts against stale state, the
spurious released event the claimed reset is there to prevent is in
fact produced: after `[0,0,1,0,240]`, the all-clear report
`[0,0,0,0,240]` of the new stream synthesizes a release. -/
theorem C4_no_reset_spurious_release :
    (parseButtonPress [0, 0, 0, 0, 240]
        (parseButtonPress [0, 0, 1, 0, 240] []).2).1 =
      some [⟨0, 0, "Red Buzzer", ButtonAction.released⟩] := by
  decide

/-- C5: for every input buffer and every decoder state, the event list
returned by one `parseButtonPress` call is ordered by controller index
ascending and, within one controller, by button index ascending,
independently of which bits of the report changed. -/
theorem C5_event_order (data : List Nat) (s : ButtonStates) :
    (eventsOf (parseButtonPress data s)).Pairwise fun e1 e2 =>
      e1.controller < e2.controller ∨
        (e1.controller = e2.controller ∧ e1.button < e2.button) := by
  by_cases h : data.length < 5
  · unfold eventsOf parseButtonPress
    rw [if_pos h]
    simp
  · rw [eventsOf_parse data s h]
    refine pairwise_filterMap_of_rel ?_ lociList lociList_sorted
    intro a b e1 e2 hr ha hb
    obtain ⟨hc1, hb1⟩ := edgeEvent_some_key _ _ _ _ ha
    obtain ⟨hc2, hb2⟩ := edgeEvent_some_key _ _ _ _ hb
    rw [hc1, hb1, hc2, hb2]
    exact hr

/-- C6: every valid decode performs a full snapshot replace — afterwards
the retained snapshot maps each of the 20 loci to exactly the bit value
read from the report; in particular a valid report in which no locus
transitions returns no events and leaves the snapshot extensionally
unchanged on all 20 loci. -/
theorem C6_snapshot_replace (data : List Nat) (s : ButtonStates)
    (h : 5 ≤ data.length) :
    (∀ l ∈ lociList,
        lookupState (parseButtonPress data s).2 l.1 l.2.1 =
          readBit (data.take 5) l.2.2) ∧
      ((∀ l ∈ lociList,
          readBit (data.take 5) l.2.2 = lookupState s l.1 l.2.1) →
        (parseButtonPress data s).1 = none ∧
          ∀ l ∈ lociList,
            lookupState (parseButtonPress data s).2 l.1 l.2.1 =
              lookupState s l.1 l.2.1) := by
  have hn : ¬ data.length < 5 := by omega
  refine ⟨fun l hl => lookupState_parse data s hn l hl,
    fun hno => ⟨?_, fun l hl => ?_⟩⟩
  · rw [parse_fst data s hn]
    have hnil : lociList.filterMap (edgeEvent s (data.take 5)) = [] := by
      rw [List.filterMap_eq_nil_iff]
      exact fun l hl => edgeEvent_eq_none s (data.take 5) l (hno l hl)
    rw [hnil]
    rfl
  · rw [lookupState_parse data s hn l hl]
    exact hno l hl

/-- Witness for C6: a no-transition report against a matching state. -/
theorem C6_snapshot_replace_witness :
    (parseButtonPress [0, 0, 0, 0, 240] [((0, 0), false)]).1 = none :=
  ((C6_snapshot_replace [0, 0, 0, 0, 240] [((0, 0), false)]
    (by decide)).2 (by decide)).1

/-- C7: the LED encoder is a total pure function whose output is always
exactly the 6 bytes `[0x00, 0x00, b0, b1, b2, b3]`, each channel byte
`0xFF` when lit and `0x00` otherwise and never any other value; a
channel missing from the input object is treated as unlit, so
`encode({0:true,1:false,2:true,3:false}) = [0,0,0xFF,0,0xFF,0]` and
`encode({}) = [0,0,0,0,0,0]`. -/
theorem C7_encoder_shape (ls : BuzzerLedState) (o : Nat → Option Bool) :
    BuzzControllerUtils.ledStateToCommand ls =
        [0x00, 0x00,
         if ls.led0 then 0xFF else 0x00,
         if ls.led1 then 0xFF else 0x00,
         if ls.led2 then 0xFF else 0x00,
         if ls.led3 then 0xFF else 0x00] ∧
      (BuzzControllerUtils.ledStateToCommand ls).length = 6 ∧
      ((BuzzControllerUtils.ledStateToCommand ls).all
        fun x => x == 0x00 || x == 0xFF) = true ∧
      BuzzControllerUtils.ledStateToCommandObj o =
        BuzzControllerUtils.ledStateToCommand
          ⟨(o 0).getD false, (o 1).getD false,
           (o 2).getD false, (o 3).getD false⟩ ∧
      BuzzControllerUtils.ledStateToCommand ⟨true, false, true, false⟩ =
        [0x00, 0x00, 0xFF, 0x00, 0xFF, 0x00] ∧
      BuzzControllerUtils.ledStateToCommandObj (fun _ => none) =
        [0x00, 0x00, 0x00, 0x00, 0x00, 0x00] := by
  obtain ⟨b0, b1, b2, b3⟩ := ls
  refine ⟨rfl, rfl, ?_, rfl, rfl, rfl⟩
  cases b0 <;> cases b1 <;> cases b2 <;> cases b3 <;> rfl

/-- C8: from the initial all-unpressed snapshot, `[0,0,0,0,240]` yields
no events; `[0,0,1,0,240]` then yields exactly one pressed event for
controller 0 button 0; `[0,0,0,0,240]` again yields exactly one
released event for the same locus. -/
theorem C8_spec_scenario :
    (parseButtonPress [0, 0, 0, 0, 240] []).1 = none ∧
      (parseButtonPress [0, 0, 1, 0, 240]
          (parseButtonPress [0, 0, 0, 0, 240] []).2).1 =
        some [⟨0, 0, "Red Buzzer", ButtonAction.pressed⟩] ∧
      (parseButtonPress [0, 0, 0, 0, 240]
          (parseButtonPress [0, 0, 1, 0, 240]
            (parseButtonPress [0, 0, 0, 0, 240] []).2).2).1 =
        some [⟨0, 0, "Red Buzzer", ButtonAction.released⟩] := by
  decide

/-- C9: `isValidBuzzerNumber x` holds exactly when `x` is an integer in
the 1-based range [1,4]; in particular it is true for 1, 2, 3, 4 and
false for 0, 5 and the non-integer 1.5. -/
theorem C9_valid_buzzer_number (x : Rat) :
    (BuzzControllerUtils.isValidBuzzerNumber x = true ↔
        ∃ n : ℤ, x = (n : Rat) ∧ 1 ≤ n ∧ n ≤ 4) ∧
      BuzzControllerUtils.isValidBuzzerNumber 1 = true ∧
      BuzzControllerUtils.isValidBuzzerNumber 2 = true ∧
      BuzzControllerUtils.isValidBuzzerNumber 3 = true ∧
      BuzzControllerUtils.isValidBuzzerNumber 4 = true ∧
      BuzzControllerUtils.isValidBuzzerNumber 0 = false ∧
      BuzzControllerUtils.isValidBuzzerNumber 5 = false ∧
      BuzzControllerUtils.isValidBuzzerNumber (3 / 2) = false := by
  constructor
  · unfold BuzzControllerUtils.isValidBuzzerNumber
    simp only [Bool.and_eq_true, decide_eq_true_eq, ge_iff_le]
    constructor
    · rintro ⟨⟨hge, hle⟩, hden⟩
      have hx : ((x.num : Rat)) = x := (Rat.den_eq_one_iff x).mp hden
      refine ⟨x.num, hx.symm, ?_, ?_⟩
      · have h1 : (1 : Rat) ≤ (x.num : Rat) := by rw [hx]; exact hge
        exact_mod_cast h1
      · have h4 : ((x.num : Rat)) ≤ 4 := by rw [hx]; exact hle
        exact_mod_cast h4
    · rintro ⟨n, rfl, hn1, hn4⟩
      refine ⟨⟨?_, ?_⟩, Rat.den_intCast n⟩
      · exact_mod_cast hn1
      · exact_mod_cast hn4
  · refine ⟨?_, ?_, ?_, ?_, ?_, ?_, ?_⟩ <;>
      norm_num [BuzzControllerUtils.isValidBuzzerNumber]

/-- Witness for C9: the characterization applied at the integer 2. -/
theorem C9_valid_buzzer_number_witness :
    BuzzControllerUtils.isValidBuzzerNumber 2 = true :=
  ((C9_valid_buzzer_number 2).1).mpr ⟨2, by norm_num, by norm_num, by norm_num⟩

/-- C10: rejection is atomic — a buffer of length < 5 returns the
rejection result and leaves the retained snapshot untouched, so the
next decode of any report computes edges against exactly the state that
preceded the rejected call. -/
theorem C10_rejection_atomic (data : List Nat) (s : ButtonStates)
    (h : data.length < 5) :
    parseButtonPress data s = (none, s) ∧
      ∀ r : List Nat,
        parseButtonPress r (parseButtonPress data s).2 =
          parseButtonPress r s := by
  have hps : parseButtonPress data s = (none, s) := by
    unfold parseButtonPress
    rw [if_pos h]
  exact ⟨hps, fun r => by rw [hps]⟩

/-- Witness for C10 at a concrete short buffer and non-empty state. -/
theorem C10_rejection_atomic_witness :
    parseButtonPress [0, 0, 0] [((0, 0), true)] =
        (none, [((0, 0), true)]) ∧
      parseButtonPress [0, 0, 0, 0, 240]
          (parseButtonPress [0, 0, 0] [((0, 0), true)]).2 =
        parseButtonPress [0, 0, 0, 0, 240] [((0, 0), true)] :=
  ⟨(C10_rejection_atomic [0, 0, 0] [((0, 0), true)] (by decide)).1,
   (C10_rejection_atomic [0, 0, 0] [((0, 0), true)] (by decide)).2
     [0, 0, 0, 0, 240]⟩
